import Mathlib

/-!
Verification development for the pod-forward backend
(src/pod-forward-backend/main.go).

Strings are modelled as lists of characters (type Str below); Go string
operations become list operations.  Each definition is a shallow embedding
of the corresponding Go function, translated from the source; doc comments
name the source lines.
-/

/-- Go strings are modelled as lists of characters. -/
abbrev Str := List Char

/-- Converts a Lean string literal to the character-list model. -/
def str (s : String) : Str := s.data

/-- Models Go strings.TrimPrefix(s, p): drops p from the front of s when p
is a leading piece of s, otherwise returns s unchanged. -/
def goTrimPre (s p : Str) : Str :=
  if p.isPrefixOf s then s.drop p.length else s

/-- The proxy path piece "/api/v1/extensions/pod-forward" used by the
backend both for request-path stripping (main.go line 317) and for
Location-header rewriting (main.go lines 373 and 379). -/
def proxyPfx : Str := str "/api/v1/extensions/pod-forward"

/-- Models the repeated Go pattern of appending "?" plus the raw query
when the query is nonempty (main.go lines 324-326 and 380-382). -/
def querySuffix (q : Str) : Str :=
  if q = [] then [] else '?' :: q

/-! ## Model of net/url parsing, as used on Location headers

The backend calls url.Parse on absolute http:// or https:// Location
values and reads back only Path and RawQuery (main.go lines 377-383).
The model below reproduces that parse for such URLs: cut the fragment at
the first number sign, cut the raw query at the first question mark, skip
the authority (everything up to the first slash after the scheme), and
percent-decode the path.  Parsing fails (returns none) on a malformed
percent escape in the path, in which case the backend leaves the Location
value unchanged; host-syntax validation performed by net/url is not
modelled. -/

/-- Splits a character list at the first occurrence of c; the separator is
dropped.  When c does not occur, the second component is empty. -/
def splitAtChar (c : Char) : Str → Str × Str
  | [] => ([], [])
  | a :: rest =>
    if a = c then ([], rest)
    else
      let (l, r) := splitAtChar c rest
      (a :: l, r)

/-- Hexadecimal digit value of a character, none when not a hex digit. -/
def unhex (c : Char) : Option Nat :=
  if '0' ≤ c ∧ c ≤ '9' then some (c.toNat - 48)
  else if 'A' ≤ c ∧ c ≤ 'F' then some (c.toNat - 55)
  else if 'a' ≤ c ∧ c ≤ 'f' then some (c.toNat - 87)
  else none

/-- Percent-decodes a URL path the way net/url does when it builds the
decoded Path field: a percent sign must be followed by two hex digits and
is replaced by the decoded byte; a malformed escape is a parse error. -/
def unescapePath : Str → Option Str
  | [] => some []
  | '%' :: c1 :: c2 :: rest =>
    match unhex c1, unhex c2 with
    | some h1, some h2 => (unescapePath rest).map (fun r => Char.ofNat (16 * h1 + h2) :: r)
    | _, _ => none
  | '%' :: _ => none
  | c :: rest => (unescapePath rest).map (fun r => c :: r)

/-- Result of parsing an absolute URL: the decoded path and the raw query,
the only two fields the backend reads (main.go lines 379-381). -/
structure GoURL where
  Path : Str
  RawQuery : Str
deriving DecidableEq

/-- Models url.Parse for a string carrying an http:// or https:// scheme,
keeping the two fields the backend uses.  See the section comment above
for the abstraction boundary. -/
def urlParse (s : Str) : Option GoURL :=
  let afterScheme := if (str "http://").isPrefixOf s then s.drop 7 else s.drop 8
  let beforeFrag := (splitAtChar '#' afterScheme).1
  let (beforeQuery, rawQuery) := splitAtChar '?' beforeFrag
  let rawPath := beforeQuery.dropWhile (fun c => c ≠ '/')
  (unescapePath rawPath).map (fun p => { Path := p, RawQuery := rawQuery })

/-- Models the Location-header rewriting of proxyHTTP (main.go lines
368-384): a path-absolute value gets the proxy piece prepended; an
absolute http or https URL is parsed and replaced by the proxy piece plus
its path and raw query (unchanged when parsing fails); anything else is
left as is. -/
def rewriteLocation (loc : Str) : Str :=
  if (str "/").isPrefixOf loc then proxyPfx ++ loc
  else if (str "http://").isPrefixOf loc ∨ (str "https://").isPrefixOf loc then
    match urlParse loc with
    | some u => proxyPfx ++ u.Path ++ querySuffix u.RawQuery
    | none => loc
  else loc

/-- Models how proxyHTTP emits Location headers (main.go lines 366-401):
Header.Get reads the first value of the upstream list; when it is
nonempty the rewritten value is set as the single Location header of the
response; the header-copying loop always skips the Location key, so no
other value survives. -/
def respLocationOut (locValues : List Str) : List Str :=
  let locationHeader := locValues.headD []
  if locationHeader ≠ [] then [rewriteLocation locationHeader] else []

lemma http_not_slash {loc : Str} (h : (str "http://").isPrefixOf loc = true) :
    (str "/").isPrefixOf loc = false := by
  cases loc with
  | nil => simp [str, List.isPrefixOf] at h
  | cons c rest =>
    simp only [str] at h ⊢
    simp only [show ("http://").data = 'h' :: ("ttp://").data from rfl,
      show ("/").data = '/' :: ([] : Str) from rfl, List.isPrefixOf] at h ⊢
    rcases Bool.and_eq_true .. |>.mp h with ⟨hc, -⟩
    simp_all [beq_iff_eq]
    intro hcontra
    exact absurd (hcontra ▸ hc) (by decide)

lemma https_not_slash {loc : Str} (h : (str "https://").isPrefixOf loc = true) :
    (str "/").isPrefixOf loc = false := by
  cases loc with
  | nil => simp [str, List.isPrefixOf] at h
  | cons c rest =>
    simp only [str] at h ⊢
    simp only [show ("https://").data = 'h' :: ("ttps://").data from rfl,
      show ("/").data = '/' :: ([] : Str) from rfl, List.isPrefixOf] at h ⊢
    rcases Bool.and_eq_true .. |>.mp h with ⟨hc, -⟩
    simp_all [beq_iff_eq]
    intro hcontra
    exact absurd (hcontra ▸ hc) (by decide)

/-- C1: a Location header is rewritten before the response is copied: a
path-absolute value gets the proxy path piece prepended; an absolute http
or https URL is replaced by the proxy path piece plus the URL's path and
query, discarding scheme and host; in particular "/login" becomes
"/api/v1/extensions/pod-forward/login" and
"http://localhost:9999/callback?x=1" becomes
"/api/v1/extensions/pod-forward/callback?x=1". -/
theorem location_rewrite_spec :
    (∀ loc : Str, (str "/").isPrefixOf loc = true →
      rewriteLocation loc = proxyPfx ++ loc) ∧
    (∀ (loc : Str) (u : GoURL),
      ((str "http://").isPrefixOf loc = true ∨ (str "https://").isPrefixOf loc = true) →
      urlParse loc = some u →
      rewriteLocation loc = proxyPfx ++ u.Path ++ querySuffix u.RawQuery) ∧
    rewriteLocation (str "/login") = str "/api/v1/extensions/pod-forward/login" ∧
    rewriteLocation (str "http://localhost:9999/callback?x=1") =
      str "/api/v1/extensions/pod-forward/callback?x=1" := by
  refine ⟨?_, ?_, by decide, by decide⟩
  · intro loc h
    simp [rewriteLocation, h]
  · intro loc u hscheme hparse
    have hslash : (str "/").isPrefixOf loc = false := by
      rcases hscheme with h | h
      · exact http_not_slash h
      · exact https_not_slash h
    rcases hscheme with h | h <;>
      simp [rewriteLocation, hslash, h, hparse]

/-- Closed instance of the Location-rewrite theorem at loc = "/login". -/
theorem location_rewrite_spec_witness :
    rewriteLocation (str "/login") = proxyPfx ++ str "/login" :=
  location_rewrite_spec.1 (str "/login") (by decide)

/-! ## Request-path rewriting of proxyHTTP -/

/-- Models the request-path rewriting of proxyHTTP (main.go lines
310-321): the two canonical entry paths map to the root, any other path
under the slash-terminated proxy piece has the proxy piece stripped, and
every other path is kept as is. -/
def rewritePath (path : Str) : Str :=
  if path = str "/forward" ∨ path = str "/api/v1/extensions/pod-forward/forward" then
    str "/"
  else if (str "/api/v1/extensions/pod-forward/").isPrefixOf path then
    let p := goTrimPre path proxyPfx
    if p = [] then str "/" else p
  else path

/-- Decimal digit characters of a natural number, via the core printer. -/
def natToStr (n : Nat) : Str := (Nat.repr n).data

/-- Models the target-URL construction of proxyHTTP (main.go lines
323-326): http://localhost: plus the local port, the rewritten path, and
the raw query when nonempty. -/
def targetURL (localPort : Nat) (path rawQuery : Str) : Str :=
  str "http://localhost:" ++ natToStr localPort ++ rewritePath path ++ querySuffix rawQuery

lemma slashPre_isPrefixOf_append (rest : Str) :
    (str "/api/v1/extensions/pod-forward/").isPrefixOf
      (str "/api/v1/extensions/pod-forward/" ++ rest) = true :=
  List.isPrefixOf_iff_prefix.mpr (List.prefix_append _ _)

lemma append_ne_forward (rest : Str) :
    str "/api/v1/extensions/pod-forward/" ++ rest ≠ str "/forward" := by
  intro h
  have hlen := congrArg List.length h
  simp [str, List.length_append] at hlen

/-- C4: the reverse proxy rewrites the request target to
http://localhost:localPort plus the rewritten path: the two canonical
entry paths map to "/", any other path under the proxy piece has the
piece stripped (keeping the leading slash), every other path passes
through unchanged, and a nonempty query string is appended after "?". -/
theorem request_rewrite_spec :
    rewritePath (str "/forward") = str "/" ∧
    rewritePath (str "/api/v1/extensions/pod-forward/forward") = str "/" ∧
    (∀ rest : Str, rest ≠ str "forward" →
      rewritePath (str "/api/v1/extensions/pod-forward/" ++ rest) = '/' :: rest) ∧
    (∀ path : Str, (str "/api/v1/extensions/pod-forward/").isPrefixOf path = false →
      path ≠ str "/forward" → rewritePath path = path) ∧
    (∀ (lp : Nat) (path q : Str), q ≠ [] →
      targetURL lp path q = targetURL lp path [] ++ '?' :: q) := by
  refine ⟨by decide, by decide, ?_, ?_, ?_⟩
  · intro rest hrest
    have hne1 := append_ne_forward rest
    have hne2 : str "/api/v1/extensions/pod-forward/" ++ rest ≠
        str "/api/v1/extensions/pod-forward/forward" := by
      intro h
      have hsplit : str "/api/v1/extensions/pod-forward/forward" =
          str "/api/v1/extensions/pod-forward/" ++ str "forward" := by decide
      rw [hsplit] at h
      exact hrest ((List.append_right_inj _).mp h)
    have hpre := slashPre_isPrefixOf_append rest
    have hpxy : (str "/api/v1/extensions/pod-forward/" ++ rest) =
        proxyPfx ++ ('/' :: rest) := by
      have : str "/api/v1/extensions/pod-forward/" = proxyPfx ++ ['/'] := by decide
      simp [this, List.append_assoc]
    have htrim : goTrimPre (str "/api/v1/extensions/pod-forward/" ++ rest) proxyPfx =
        '/' :: rest := by
      have hp : proxyPfx.isPrefixOf (str "/api/v1/extensions/pod-forward/" ++ rest) = true := by
        rw [hpxy]
        exact List.isPrefixOf_iff_prefix.mpr (List.prefix_append _ _)
      simp only [goTrimPre, hp, if_true, hpxy]
      exact List.drop_left _ _
    simp [rewritePath, hne1, hne2, hpre, htrim]
  · intro path hpre hne
    have hne2 : path ≠ str "/api/v1/extensions/pod-forward/forward" := by
      intro h
      rw [h] at hpre
      have : (str "/api/v1/extensions/pod-forward/").isPrefixOf
          (str "/api/v1/extensions/pod-forward/forward") = true := by decide
      simp [this] at hpre
    simp [rewritePath, hne, hne2, hpre]
  · intro lp path q hq
    simp [targetURL, querySuffix, hq, List.append_assoc]

/-- Closed instance of the request-rewrite theorem: a Grafana-style path
under the proxy piece is stripped to the bare target path. -/
theorem request_rewrite_spec_witness :
    rewritePath (str "/api/v1/extensions/pod-forward/" ++ str "grafana/login") =
      '/' :: str "grafana/login" :=
  request_rewrite_spec.2.2.1 (str "grafana/login") (by decide)

/-- C10, amended: a Location value that is neither path-absolute nor an
absolute http or https URL passes through unchanged; the emitted Location
depends only on the first upstream value; when that first value is
nonempty exactly one Location header is emitted, and when it is empty
none is. -/
theorem location_passthrough_spec :
    (∀ loc : Str, (str "/").isPrefixOf loc = false →
      (str "http://").isPrefixOf loc = false →
      (str "https://").isPrefixOf loc = false →
      rewriteLocation loc = loc) ∧
    (∀ (v : Str) (r r' : List Str), respLocationOut (v :: r) = respLocationOut (v :: r')) ∧
    (∀ (v : Str) (r : List Str), v ≠ [] → respLocationOut (v :: r) = [rewriteLocation v]) ∧
    (∀ r : List Str, respLocationOut ([] :: r) = []) := by
  refine ⟨?_, ?_, ?_, ?_⟩
  · intro loc h1 h2 h3
    simp [rewriteLocation, h1, h2, h3]
  · intro v r r'
    simp [respLocationOut]
  · intro v r hv
    simp [respLocationOut, hv]
  · intro r
    simp [respLocationOut]

/-- Counterexample for C10 as stated: an upstream response carrying two
Location values whose first is empty is proxied with no Location header
at all, not exactly one. -/
theorem location_passthrough_counterexample :
    ([str "", str "/login"] : List Str).length = 2 ∧
    respLocationOut [str "", str "/login"] = [] := by decide

/-- Closed instance of the pass-through theorem: the relative reference
"login" is forwarded without any proxy piece added. -/
theorem location_passthrough_spec_witness :
    rewriteLocation (str "login") = str "login" :=
  location_passthrough_spec.1 (str "login") (by decide) (by decide) (by decide)

/-! ## Session registry state

PortForwardSession (main.go lines 29-38) carries the identity, the
locally bound port, the forwarder handle PF — modelled by the boolean
PFLive standing for PF being non-nil — and the last-used timestamp,
modelled as a natural number with zero standing for Go's zero time. -/

/-- Model of PortForwardSession (main.go lines 29-38). -/
structure Session where
  Namespace : Str
  Pod : Str
  Port : Int
  LocalPort : Nat
  PFLive : Bool
  LastUsed : Nat
deriving DecidableEq

/-- One iteration of the fallback scan of handlePortForward (main.go
lines 120-131): the accumulator holds the selected session and the most
recent timestamp seen, starting from (none, zero time); a session is
selected when its forwarder is live and its timestamp is strictly later. -/
def scanStep (acc : Option Session × Nat) (sess : Session) : Option Session × Nat :=
  if sess.PFLive = true ∧ acc.2 < sess.LastUsed then (some sess, sess.LastUsed) else acc

/-- Models the fallback selection of handlePortForward (main.go lines
117-131): scan every registered session and keep the live one with the
latest last-used timestamp. -/
def mostRecentLive (sessions : List Session) : Option Session :=
  (sessions.foldl scanStep (none, 0)).1

/-- Invariant carried by the fallback scan: an empty accumulator has the
zero timestamp, and a selected session is live and owns the accumulated
timestamp. -/
def accInv : Option Session × Nat → Prop
  | (none, m) => m = 0
  | (some s, m) => s.PFLive = true ∧ s.LastUsed = m

lemma scanStep_snd_le (acc : Option Session × Nat) (s : Session) :
    acc.2 ≤ (scanStep acc s).2 := by
  by_cases h : s.PFLive = true ∧ acc.2 < s.LastUsed
  · simp [scanStep, h]
    omega
  · simp [scanStep, h]

lemma foldl_scan_snd_le (l : List Session) (acc : Option Session × Nat) :
    acc.2 ≤ (l.foldl scanStep acc).2 := by
  induction l generalizing acc with
  | nil => simp
  | cons a t ih => exact le_trans (scanStep_snd_le acc a) (ih (scanStep acc a))

lemma foldl_scan_ub (l : List Session) (acc : Option Session × Nat) :
    ∀ t ∈ l, t.PFLive = true → t.LastUsed ≤ (l.foldl scanStep acc).2 := by
  induction l generalizing acc with
  | nil => simp
  | cons a rest ih =>
    intro t ht hlive
    rcases List.mem_cons.mp ht with rfl | hmem
    · have hstep : t.LastUsed ≤ (scanStep acc t).2 := by
        by_cases h : t.PFLive = true ∧ acc.2 < t.LastUsed
        · simp [scanStep, h]
        · simp [scanStep, h]
          have : ¬ acc.2 < t.LastUsed := fun hc => h ⟨hlive, hc⟩
          omega
      exact le_trans hstep (foldl_scan_snd_le rest (scanStep acc t))
    · exact ih (scanStep acc a) t hmem hlive

lemma foldl_scan_inv (l : List Session) (acc : Option Session × Nat)
    (h : accInv acc) : accInv (l.foldl scanStep acc) := by
  induction l generalizing acc with
  | nil => exact h
  | cons a rest ih =>
    refine ih (scanStep acc a) ?_
    by_cases hc : a.PFLive = true ∧ acc.2 < a.LastUsed
    · simp [scanStep, hc, accInv]
    · simpa [scanStep, hc] using h

lemma foldl_scan_mem (l : List Session) (acc : Option Session × Nat) (s : Session)
    (h : (l.foldl scanStep acc).1 = some s) : acc.1 = some s ∨ s ∈ l := by
  induction l generalizing acc with
  | nil => exact Or.inl h
  | cons a rest ih =>
    rcases ih (scanStep acc a) h with hstep | hmem
    · by_cases hc : a.PFLive = true ∧ acc.2 < a.LastUsed
      · simp [scanStep, hc] at hstep
        exact Or.inr (by simp [hstep])
      · simp [scanStep, hc] at hstep
        exact Or.inl hstep
    · exact Or.inr (List.mem_cons_of_mem a hmem)

/-- C5: the fallback scan selects a live registered session whose
last-used timestamp dominates every live session; a live session with a
positive timestamp guarantees one is selected; with two live sessions at
timestamps T1 less than T2 the T2 session is selected in either registry
order; the empty registry selects none. -/
theorem fallback_resolution_spec :
    mostRecentLive [] = none ∧
    (∀ (l : List Session) (s : Session), mostRecentLive l = some s →
      s ∈ l ∧ s.PFLive = true ∧
        ∀ t ∈ l, t.PFLive = true → t.LastUsed ≤ s.LastUsed) ∧
    (∀ l : List Session, (∃ t ∈ l, t.PFLive = true ∧ 0 < t.LastUsed) →
      (mostRecentLive l).isSome = true) ∧
    (∀ a b : Session, a.PFLive = true → b.PFLive = true →
      a.LastUsed < b.LastUsed →
      mostRecentLive [a, b] = some b ∧ mostRecentLive [b, a] = some b) := by
  have hsel : ∀ (l : List Session) (s : Session), mostRecentLive l = some s →
      s ∈ l ∧ s.PFLive = true ∧
        ∀ t ∈ l, t.PFLive = true → t.LastUsed ≤ s.LastUsed := by
    intro l s h
    have hmem : s ∈ l := by
      rcases foldl_scan_mem l (none, 0) s h with hbase | hmem
      · simp at hbase
      · exact hmem
    have hinv := foldl_scan_inv l (none, 0) (by simp [accInv])
    have hfst : (l.foldl scanStep (none, 0)).1 = some s := h
    rcases hfold : l.foldl scanStep (none, 0) with ⟨fst, snd⟩
    rw [hfold] at hinv hfst
    have hfst' : fst = some s := hfst
    subst hfst'
    have hinv' : s.PFLive = true ∧ s.LastUsed = snd := hinv
    obtain ⟨hlive, hts⟩ := hinv'
    refine ⟨hmem, hlive, ?_⟩
    intro t ht htlive
    have hub := foldl_scan_ub l (none, 0) t ht htlive
    rw [hfold] at hub
    omega
  have hex : ∀ l : List Session, (∃ t ∈ l, t.PFLive = true ∧ 0 < t.LastUsed) →
      (mostRecentLive l).isSome = true := by
    intro l ⟨t, htmem, htlive, htpos⟩
    have hub := foldl_scan_ub l (none, 0) t htmem htlive
    have hinv := foldl_scan_inv l (none, 0) (by simp [accInv])
    rcases hfold : l.foldl scanStep (none, 0) with ⟨fst, snd⟩
    cases fst with
    | none =>
      rw [hfold] at hinv hub
      simp [accInv] at hinv
      omega
    | some s => simp [mostRecentLive, hfold]
  refine ⟨rfl, hsel, hex, ?_⟩
  intro a b halive hblive hab
  constructor
  · have hsome := hex [a, b] ⟨b, by simp, hblive, by omega⟩
    rcases hs : mostRecentLive [a, b] with - | s
    · simp [hs] at hsome
    · rcases hsel [a, b] s hs with ⟨hmem, -, hmax⟩
      have hbmax := hmax b (by simp) hblive
      rcases List.mem_cons.mp hmem with rfl | hmem2
      · omega
      · simp at hmem2
        rw [hmem2]
  · have hsome := hex [b, a] ⟨b, by simp, hblive, by omega⟩
    rcases hs : mostRecentLive [b, a] with - | s
    · simp [hs] at hsome
    · rcases hsel [b, a] s hs with ⟨hmem, -, hmax⟩
      have hbmax := hmax b (by simp) hblive
      rcases List.mem_cons.mp hmem with rfl | hmem2
      · rfl
      · simp at hmem2
        subst hmem2
        omega

/-- Closed instance of the fallback-resolution theorem: of two live
sessions last used at times 1 and 2, the scan picks the later one. -/
theorem fallback_resolution_spec_witness :
    mostRecentLive
      [⟨str "ns", str "p1", 80, 30001, true, 1⟩,
       ⟨str "ns", str "p2", 80, 30002, true, 2⟩] =
      some ⟨str "ns", str "p2", 80, 30002, true, 2⟩ :=
  (fallback_resolution_spec.2.2.2
    ⟨str "ns", str "p1", 80, 30001, true, 1⟩
    ⟨str "ns", str "p2", 80, 30002, true, 2⟩
    (by decide) (by decide) (by decide)).1

/-! ## Request parameter handling of handlePortForward -/

/-- Decimal digit test. -/
def isDigitCh (c : Char) : Bool := '0' ≤ c && c ≤ '9'

/-- Numeric value of a nonempty all-digit string, none otherwise. -/
def digitsVal (s : Str) : Option Nat :=
  if s = [] then none
  else if s.all isDigitCh then
    some (s.foldl (fun n c => 10 * n + (c.toNat - 48)) 0)
  else none

/-- Largest value of Go's 64-bit int. -/
def int64Max : Nat := 9223372036854775807

/-- Models strconv.Atoi as called at main.go line 159: an optional sign
followed by at least one decimal digit, rejected when the value leaves
the 64-bit int range; any other shape is a parse error. -/
def goAtoi (s : Str) : Option Int :=
  match s with
  | '+' :: rest =>
    (digitsVal rest).bind (fun n => if n ≤ int64Max then some (n : Int) else none)
  | '-' :: rest =>
    (digitsVal rest).bind (fun n => if n ≤ int64Max + 1 then some (-(n : Int)) else none)
  | _ =>
    (digitsVal s).bind (fun n => if n ≤ int64Max then some (n : Int) else none)

/-- Pieces of the HTML template written by serveForwardPage (main.go
lines 293-304), split at its three format verbs. -/
def forwardPageHTML1 : Str :=
  str "<!DOCTYPE html>\n<html>\n<head>\n    <title>Port Forward</title>\n    <meta charset=\"utf-8\">\n</head>\n<body>\n    <h1>Port Forward Activo</h1>\n    <p>El port-forward está activo. Puedes acceder a la aplicación del pod directamente.</p>\n    <p>Parámetros: namespace="

/-- Template piece between the namespace and pod parameters. -/
def forwardPageHTML2 : Str := str ", pod="

/-- Template piece between the pod and port parameters. -/
def forwardPageHTML3 : Str := str ", port="

/-- Template piece after the port parameter. -/
def forwardPageHTML4 : Str := str "</p>\n</body>\n</html>"

/-- Models serveForwardPage (main.go lines 291-305): the informational
page body with the three query parameters interpolated. -/
def serveForwardPage (ns pod port : Str) : Str :=
  forwardPageHTML1 ++ ns ++ forwardPageHTML2 ++ pod ++
    forwardPageHTML3 ++ port ++ forwardPageHTML4

/-- Outcome of the dispatch decision taken by handlePortForward:
proxy to the most recent live session's local port, serve the
informational page, reject with 400 for missing parameters, reject with
400 for an unparseable port, or resolve the explicit identity through
the session registry. -/
inductive HandleResult where
  | proxied (localPort : Nat)
  | forwardPage (ns pod port : Str)
  | badRequestMissing
  | invalidPort (portStr : Str)
  | dispatchSession (ns pod : Str) (port : Int)
deriving DecidableEq

/-- Models the dispatch decision of handlePortForward (main.go lines
105-183): with a missing parameter, fall back to the most recent live
session when one exists, else serve the informational page on a GET to
"/forward" or to any path extending
"/api/v1/extensions/pod-forward/forward", else answer 400; with all
parameters present, an unparseable port answers 400 and a parsed port
yields the explicit identity handed to the registry.  The last-used
refresh performed on the chosen session (lines 135-138 and 176-179) and
the session-key string of line 166 belong to the registry model below. -/
def handlePortForward (method path ns pod portStr : Str)
    (sessions : List Session) : HandleResult :=
  if ns = [] ∨ pod = [] ∨ portStr = [] then
    match mostRecentLive sessions with
    | some s => .proxied s.LocalPort
    | none =>
      if (path = str "/forward" ∨
          (str "/api/v1/extensions/pod-forward/forward").isPrefixOf path = true) ∧
          method = str "GET" then
        .forwardPage ns pod portStr
      else .badRequestMissing
  else
    match goAtoi portStr with
    | none => .invalidPort portStr
    | some port => .dispatchSession ns pod port

/-- C6, amended: with a missing parameter and no live session, a GET to
"/forward" or to any path extending
"/api/v1/extensions/pod-forward/forward" is answered with the
informational page echoing the provided parameters, and every other
path or method is answered 400; the page embeds the namespace, pod and
port parameter values. -/
theorem missing_params_response_spec :
    (∀ (method path ns pod portStr : Str) (sessions : List Session),
      ns = [] ∨ pod = [] ∨ portStr = [] →
      mostRecentLive sessions = none →
      handlePortForward method path ns pod portStr sessions =
        (if (path = str "/forward" ∨
            (str "/api/v1/extensions/pod-forward/forward").isPrefixOf path = true) ∧
            method = str "GET"
         then HandleResult.forwardPage ns pod portStr
         else HandleResult.badRequestMissing)) ∧
    (∀ ns pod p : Str,
      ns <:+: serveForwardPage ns pod p ∧
      pod <:+: serveForwardPage ns pod p ∧
      p <:+: serveForwardPage ns pod p) := by
  constructor
  · intro method path ns pod portStr sessions hmiss hnone
    simp only [handlePortForward, if_pos hmiss, hnone]
  · intro ns pod p
    refine ⟨⟨forwardPageHTML1,
        forwardPageHTML2 ++ pod ++ forwardPageHTML3 ++ p ++ forwardPageHTML4, ?_⟩,
      ⟨forwardPageHTML1 ++ ns ++ forwardPageHTML2,
        forwardPageHTML3 ++ p ++ forwardPageHTML4, ?_⟩,
      ⟨forwardPageHTML1 ++ ns ++ forwardPageHTML2 ++ pod ++ forwardPageHTML3,
        forwardPageHTML4, ?_⟩⟩ <;>
    simp [serveForwardPage, List.append_assoc]

/-- Counterexample for C6 as stated: a GET to a path that merely extends
the canonical entry path is served the informational page, not a 400. -/
theorem missing_params_response_counterexample :
    handlePortForward (str "GET") (str "/api/v1/extensions/pod-forward/forward/x")
      (str "") (str "") (str "") [] =
      HandleResult.forwardPage (str "") (str "") (str "") ∧
    str "/api/v1/extensions/pod-forward/forward/x" ≠ str "/forward" ∧
    str "/api/v1/extensions/pod-forward/forward/x" ≠
      str "/api/v1/extensions/pod-forward/forward" := by decide

/-- Closed instance of the missing-parameter theorem at a parameterless
GET to the canonical entry with an empty registry. -/
theorem missing_params_response_spec_witness :
    handlePortForward (str "GET") (str "/forward") [] [] [] [] =
      (if (str "/forward" = str "/forward" ∨
          (str "/api/v1/extensions/pod-forward/forward").isPrefixOf
            (str "/forward") = true) ∧ str "GET" = str "GET"
       then HandleResult.forwardPage [] [] []
       else HandleResult.badRequestMissing) :=
  missing_params_response_spec.1 (str "GET") (str "/forward") [] [] [] []
    (Or.inl rfl) rfl

/-- C7, amended: with all three parameters present, the request is
answered 400 InvalidPort exactly when the port parameter fails integer
parsing, and any parsed integer port — positive or not — yields the
fully specified identity handed to the registry. -/
theorem port_parse_spec :
    ∀ (method path ns pod portStr : Str) (sessions : List Session),
      ns ≠ [] → pod ≠ [] → portStr ≠ [] →
      (goAtoi portStr = none →
        handlePortForward method path ns pod portStr sessions =
          HandleResult.invalidPort portStr) ∧
      (∀ p : Int, goAtoi portStr = some p →
        handlePortForward method path ns pod portStr sessions =
          HandleResult.dispatchSession ns pod p) := by
  intro method path ns pod portStr sessions hns hpod hport
  have hcond : ¬ (ns = [] ∨ pod = [] ∨ portStr = []) := by
    intro h
    rcases h with h | h | h
    exacts [hns h, hpod h, hport h]
  constructor
  · intro hnone
    simp only [handlePortForward, if_neg hcond, hnone]
  · intro p hp
    simp only [handlePortForward, if_neg hcond, hp]

/-- Counterexample for C7 as stated: the port parameter "-5" is not a
positive integer, yet it parses under Atoi and the request proceeds to
the registry with port -5 instead of being answered 400 InvalidPort. -/
theorem port_parse_counterexample :
    goAtoi (str "-5") = some (-5) ∧ ¬ (0 : Int) < -5 ∧
    handlePortForward (str "GET") (str "/forward") (str "ns") (str "p")
      (str "-5") [] = HandleResult.dispatchSession (str "ns") (str "p") (-5) := by
  decide

/-- Closed instance of the port-parse theorem at port parameter "80". -/
theorem port_parse_spec_witness :
    handlePortForward (str "GET") (str "/forward") (str "ns") (str "p")
      (str "80") [] = HandleResult.dispatchSession (str "ns") (str "p") 80 :=
  (port_parse_spec (str "GET") (str "/forward") (str "ns") (str "p")
    (str "80") [] (by decide) (by decide) (by decide)).2 80 (by decide)

/-! ## Route registration and the catch-all root handler -/

/-- Registered handler chosen by the HTTP mux for a request path, per the
four registrations of main (main.go lines 62-94): the exact patterns
"/forward" and "/health", the subtree pattern
"/api/v1/extensions/pod-forward/", and the catch-all root pattern.
ServeMux path cleaning and trailing-slash redirects are not modelled. -/
inductive MuxTarget where
  | forwardH
  | extensionsH
  | healthH
  | rootH
deriving DecidableEq

/-- Mux dispatch over the four registered patterns. -/
def muxRoute (path : Str) : MuxTarget :=
  if path = str "/forward" then .forwardH
  else if (str "/api/v1/extensions/pod-forward/").isPrefixOf path then .extensionsH
  else if path = str "/health" then .healthH
  else .rootH

/-- Models the forward-like test of the root handler (main.go line 89):
the path contains "/forward" or extends the proxy subtree pattern. -/
def forwardLike (path : Str) : Bool :=
  decide ((str "/forward") <:+: path) ||
    (str "/api/v1/extensions/pod-forward/").isPrefixOf path

/-- Response of the catch-all root handler: the debug banner for the
exact root path, delegation to handlePortForward, or a 404. -/
inductive RootResult where
  | debugPage
  | handled (r : HandleResult)
  | notFound
deriving DecidableEq

/-- Models the catch-all root handler (main.go lines 81-94). -/
def rootHandle (method path ns pod portStr : Str)
    (sessions : List Session) : RootResult :=
  if path = str "/" then .debugPage
  else if forwardLike path = true then
    .handled (handlePortForward method path ns pod portStr sessions)
  else .notFound

/-- C9, amended: a request falling through to the catch-all handler on
any path other than the exact root is delegated to the shared dispatch
logic when its path is forward-like and is answered 404 otherwise; the
exact root path is answered with a 200 debug banner instead. -/
theorem catchall_routing_spec :
    ∀ (method path ns pod portStr : Str) (sessions : List Session),
      muxRoute path = MuxTarget.rootH →
      path ≠ str "/" →
      (forwardLike path = true →
        rootHandle method path ns pod portStr sessions =
          RootResult.handled (handlePortForward method path ns pod portStr sessions)) ∧
      (forwardLike path = false →
        rootHandle method path ns pod portStr sessions = RootResult.notFound) := by
  intro method path ns pod portStr sessions hmux hroot
  constructor
  · intro hlike
    simp [rootHandle, hroot, hlike]
  · intro hlike
    simp [rootHandle, hroot, hlike]

/-- Counterexample for C9 as stated: the exact root path falls through
to the catch-all handler, contains no forward-like piece, and is
answered with the 200 debug banner rather than a 404. -/
theorem catchall_routing_counterexample :
    muxRoute (str "/") = MuxTarget.rootH ∧
    forwardLike (str "/") = false ∧
    rootHandle (str "GET") (str "/") [] [] [] [] = RootResult.debugPage ∧
    RootResult.debugPage ≠ RootResult.notFound := by decide

/-- Closed instance of the catch-all theorem at the unregistered
forward-like path "/x/forward". -/
theorem catchall_routing_spec_witness :
    rootHandle (str "GET") (str "/x/forward") [] [] [] [] =
      RootResult.handled (handlePortForward (str "GET") (str "/x/forward") [] [] [] []) :=
  (catchall_routing_spec (str "GET") (str "/x/forward") [] [] [] []
    (by decide) (by decide)).1 (by decide)

/-! ## Session registry and tunnel establishment -/

/-- Process-wide registry state (main.go lines 40-46): the key-to-session
map and the local-port-to-key reverse map, modelled as association
lists. -/
structure Registry where
  activeSessions : List (Str × Session)
  localPortToSession : List (Nat × Str)
deriving DecidableEq

/-- Association-list lookup matching a Go map read. -/
def lookupKey (m : List (Str × Session)) (k : Str) : Option Session :=
  (m.find? (fun p => p.1 == k)).map (fun p => p.2)

/-- Association-list write matching a Go map assignment: overwrite an
existing entry for the key, else append a fresh one. -/
def upsertKey (m : List (Str × Session)) (k : Str) (v : Session) :
    List (Str × Session) :=
  if (m.find? (fun p => p.1 == k)).isSome then
    m.map (fun p => if p.1 == k then (k, v) else p)
  else m ++ [(k, v)]

/-- Association-list write for the local-port reverse map. -/
def upsertPort (m : List (Nat × Str)) (lp : Nat) (k : Str) : List (Nat × Str) :=
  if (m.find? (fun p => p.1 == lp)).isSome then
    m.map (fun p => if p.1 == lp then (lp, k) else p)
  else m ++ [(lp, k)]

/-- Fixed establishment timeout, in seconds (main.go line 245). -/
def setupTimeoutSeconds : Nat := 5

/-- Which signal ends the bounded establishment wait of getOrCreateSession
(main.go lines 238-247): the ready channel fires, the forwarding task's
error channel fires — carrying whether the delivered error was non-nil —
or the five-second timer fires first. -/
inductive WaitSignal where
  | ready
  | forwardErr (failed : Bool)
  | timeout
deriving DecidableEq

/-- Result of getOrCreateSession: a session, or one of the error returns
of main.go lines 202-253. -/
inductive GoCResult where
  | ok (s : Session)
  | errPodNotFound
  | errTransport
  | errSetupFailed
  | errSetupTimeout
  | errNoLocalPort
deriving DecidableEq

/-- Models the creation path of getOrCreateSession (main.go lines
201-288): probe the pod, set up the transport and forwarder — the two
pre-start error returns of lines 214-229 are folded into transportOk —
start the forwarding task, wait for a signal (a nil error delivered on
the error channel falls through like ready, lines 241-244), read the
first forwarded port, and insert the new session into both maps.  The
cleanup watcher of lines 277-286 runs after establishment and is not
part of this step. -/
def createSession (key ns pod : Str) (port : Int) (now : Nat)
    (podExists transportOk : Bool) (sig : WaitSignal)
    (forwardedPorts : List Nat) (reg : Registry) : GoCResult × Registry :=
  if podExists = false then (.errPodNotFound, reg)
  else if transportOk = false then (.errTransport, reg)
  else
    match sig with
    | .forwardErr true => (.errSetupFailed, reg)
    | .timeout => (.errSetupTimeout, reg)
    | _ =>
      match forwardedPorts with
      | [] => (.errNoLocalPort, reg)
      | lp :: _ =>
        let s : Session := ⟨ns, pod, port, lp, true, now⟩
        (.ok s,
          { activeSessions := upsertKey reg.activeSessions key s,
            localPortToSession := upsertPort reg.localPortToSession lp key })

/-- Models getOrCreateSession (main.go lines 185-289): a registered
session whose forwarder is live is returned after its last-used
timestamp is set to the current time (line 194); otherwise — no entry,
or a dead entry — the creation path runs. -/
def getOrCreateSession (key ns pod : Str) (port : Int) (now : Nat)
    (podExists transportOk : Bool) (sig : WaitSignal)
    (forwardedPorts : List Nat) (reg : Registry) : GoCResult × Registry :=
  match lookupKey reg.activeSessions key with
  | some s =>
    if s.PFLive = true then
      let s2 := { s with LastUsed := now }
      (.ok s2, { reg with activeSessions := upsertKey reg.activeSessions key s2 })
    else createSession key ns pod port now podExists transportOk sig forwardedPorts reg
  | none => createSession key ns pod port now podExists transportOk sig forwardedPorts reg

/-- C3, amended: a registered session with a live forwarder is returned
as is except that getOrCreateSession itself refreshes its last-used
timestamp to the current time (the caller then refreshes it again);
identity and local port are unchanged. -/
theorem reuse_refreshes_lastused_spec :
    ∀ (key ns pod : Str) (port : Int) (now : Nat)
      (podExists transportOk : Bool) (sig : WaitSignal)
      (forwardedPorts : List Nat) (reg : Registry) (s : Session),
      lookupKey reg.activeSessions key = some s →
      s.PFLive = true →
      (getOrCreateSession key ns pod port now podExists transportOk sig
          forwardedPorts reg).1 = GoCResult.ok { s with LastUsed := now } := by
  intro key ns pod port now podExists transportOk sig forwardedPorts reg s hfind hlive
  simp [getOrCreateSession, hfind, hlive]

/-- Counterexample for C3 as stated: reusing a live session for key
"ns/p:80" last used at time 5, at current time 9, returns the session
with last-used 9, not unchanged. -/
theorem reuse_refreshes_lastused_counterexample :
    (getOrCreateSession (str "ns/p:80") (str "ns") (str "p") 80 9 true true
        WaitSignal.ready []
        ⟨[(str "ns/p:80", ⟨str "ns", str "p", 80, 30001, true, 5⟩)],
         [(30001, str "ns/p:80")]⟩).1 =
      GoCResult.ok ⟨str "ns", str "p", 80, 30001, true, 9⟩ ∧
    (9 : Nat) ≠ 5 := by decide

/-- Closed instance of the reuse theorem at the same concrete registry. -/
theorem reuse_refreshes_lastused_spec_witness :
    (getOrCreateSession (str "ns/p:80") (str "ns") (str "p") 80 9 true true
        WaitSignal.ready []
        ⟨[(str "ns/p:80", ⟨str "ns", str "p", 80, 30001, true, 5⟩)],
         [(30001, str "ns/p:80")]⟩).1 =
      GoCResult.ok { (⟨str "ns", str "p", 80, 30001, true, 5⟩ : Session) with
        LastUsed := 9 } :=
  reuse_refreshes_lastused_spec (str "ns/p:80") (str "ns") (str "p") 80 9 true true
    WaitSignal.ready []
    ⟨[(str "ns/p:80", ⟨str "ns", str "p", 80, 30001, true, 5⟩)],
     [(30001, str "ns/p:80")]⟩
    ⟨str "ns", str "p", 80, 30001, true, 5⟩ (by decide) (by decide)

/-- C8: after the forwarding task is started, the bounded wait — five
seconds — has three outcomes: the ready signal leads to reading the
first assigned local port and constructing the session, a non-nil error
from the forwarding task fails with the setup-failed error, and the
timer firing first fails with the setup-timeout error. -/
theorem establish_wait_spec :
    setupTimeoutSeconds = 5 ∧
    ∀ (key ns pod : Str) (port : Int) (now : Nat)
      (forwardedPorts : List Nat) (reg : Registry),
      lookupKey reg.activeSessions key = none →
      (∀ (lp : Nat) (rest : List Nat), forwardedPorts = lp :: rest →
        (getOrCreateSession key ns pod port now true true WaitSignal.ready
            forwardedPorts reg).1 = GoCResult.ok ⟨ns, pod, port, lp, true, now⟩) ∧
      (getOrCreateSession key ns pod port now true true (WaitSignal.forwardErr true)
          forwardedPorts reg).1 = GoCResult.errSetupFailed ∧
      (getOrCreateSession key ns pod port now true true WaitSignal.timeout
          forwardedPorts reg).1 = GoCResult.errSetupTimeout := by
  refine ⟨rfl, ?_⟩
  intro key ns pod port now forwardedPorts reg hnone
  refine ⟨?_, ?_, ?_⟩
  · intro lp rest hports
    subst hports
    simp [getOrCreateSession, hnone, createSession]
  · simp [getOrCreateSession, hnone, createSession]
  · simp [getOrCreateSession, hnone, createSession]

/-- Closed instance of the establishment-wait theorem: on an empty
registry with the ready signal and forwarded port 30001, the constructed
session carries local port 30001. -/
theorem establish_wait_spec_witness :
    (getOrCreateSession (str "ns/p:80") (str "ns") (str "p") 80 7 true true
        WaitSignal.ready [30001] ⟨[], []⟩).1 =
      GoCResult.ok ⟨str "ns", str "p", 80, 30001, true, 7⟩ :=
  ((establish_wait_spec.2 (str "ns/p:80") (str "ns") (str "p") 80 7 [30001]
    ⟨[], []⟩ (by decide)).1) 30001 [] rfl

/-! ## Interleaving model of concurrent getOrCreateSession calls

getOrCreateSession takes the registry lock only around the initial read
(main.go lines 186-188) and around the final insert (lines 267-269);
the whole establishment between them runs unlocked.  The model below
replays two invocations for the same fresh key as three atomic steps
each — check, establish (which allocates the next ephemeral local port
and stands for a started tunnel), insert — under an arbitrary
interleaving.  A task that finds a live entry at its check returns that
entry's local port without establishing, mirroring lines 190-199. -/

/-- Control state of one invocation in the race model. -/
inductive TaskCtl where
  | start
  | establishing
  | inserting (lp : Nat)
  | done (lp : Nat)
deriving DecidableEq

/-- Shared state of the race model: the registry entry for the one key
under contention (holding the live session's local port), the next
ephemeral port the operating system will hand out — each allocation is
one established tunnel — and the two task states. -/
structure RaceState where
  reg : Option Nat
  nextPort : Nat
  t0 : TaskCtl
  t1 : TaskCtl
deriving DecidableEq

/-- One atomic step of a single invocation, as described above. -/
def ctlStep (reg : Option Nat) (nextPort : Nat) (c : TaskCtl) :
    TaskCtl × Option Nat × Nat :=
  match c with
  | .start =>
    match reg with
    | some lp => (.done lp, reg, nextPort)
    | none => (.establishing, reg, nextPort)
  | .establishing => (.inserting nextPort, reg, nextPort + 1)
  | .inserting lp => (.done lp, some lp, nextPort)
  | .done lp => (.done lp, reg, nextPort)

/-- Runs one step of the chosen task (false selects the first task). -/
def raceStep (s : RaceState) (which : Bool) : RaceState :=
  if which then
    let (c, r, np) := ctlStep s.reg s.nextPort s.t1
    { reg := r, nextPort := np, t0 := s.t0, t1 := c }
  else
    let (c, r, np) := ctlStep s.reg s.nextPort s.t0
    { reg := r, nextPort := np, t0 := c, t1 := s.t1 }

/-- Runs a whole schedule of task choices. -/
def raceRun (sched : List Bool) (s : RaceState) : RaceState :=
  sched.foldl raceStep s

/-- Both invocations start at their check with an empty registry; the
operating system will hand out ports from 40001. -/
def raceInit : RaceState := ⟨none, 40001, .start, .start⟩

/-- C2 exhibit: under the interleaving check-check-establish-establish-
insert-insert, both invocations for the same key establish a tunnel —
two ports are allocated — and they return different local ports, while
under a sequential schedule the second invocation reuses the first's
session, allocating once and returning the same port. -/
theorem getorcreate_race_exhibit :
    raceRun [false, true, false, true, false, true] raceInit =
      { reg := some 40002, nextPort := 40003,
        t0 := TaskCtl.done 40001, t1 := TaskCtl.done 40002 } ∧
    (40001 : Nat) ≠ 40002 ∧
    raceRun [false, false, false, true] raceInit =
      { reg := some 40001, nextPort := 40002,
        t0 := TaskCtl.done 40001, t1 := TaskCtl.done 40001 } := by decide
